import Mathlib

/-
  Verification of the pre-build scripts of GPUOpen-Tools/radeon_memory_visualizer.

  Shallow embedding of build/fetch_dependencies.py, build/dependency_map.py and
  build/pre_build.py.  External processes are modelled through an exit-code
  oracle (a function from the spawned command to its exit code) and a trace of
  observable events; the filesystem touched by git is modelled as the set of
  existing directories plus the checked-out revision of each working copy.
  Path resolution (os.path.join with the script root followed by
  os.path.normpath) is modelled by an abstract function parameter `resolve`.
-/

set_option linter.unusedVariables false

namespace RMV

/-- External git command invocations spawned by build/fetch_dependencies.py.
`clone` is `git clone url path` (line 59); `fetchTags` is `git fetch --tags`
run with cwd = the entry path (line 69); `checkout` is `git checkout rev` run
in the entry path (line 82); `pullFF` is `git pull --ff-only remote rev` run in
the entry path (line 88, the source passes the literal remote name "origin");
`version` is `git --version` (lines 99-100). -/
inductive GitCmd where
  | clone (url : String) (path : String)
  | fetchTags (cwd : String)
  | checkout (cwd : String) (rev : String)
  | pullFF (cwd : String) (remote : String) (rev : String)
  | version
  deriving DecidableEq

/-- Observable events of the synchronizer: a spawned command or a logPrint
message.  The `scriptName ++ ": "` preamble added by logPrint (line 36) and the
ASCII quote characters inside two of the original messages are elided; message
text is otherwise as in the source. -/
inductive Ev where
  | cmd (c : GitCmd)
  | log (msg : String)
  deriving DecidableEq

/-- One row of the git_mapping manifest (build/dependency_map.py lines 23-28):
key = repo URL, value = [local path, pinned commit, required flag]. -/
structure GitEntry where
  gitRepo : String
  localPath : String
  reqdCommit : String
  required : Bool
  deriving DecidableEq

/-- Filesystem state threaded through the synchronizer: which directories
exist (`os.path.isdir`, line 56) and which revision each working copy has
checked out.  A successful `git clone` creates its target directory; a
successful `git checkout` moves the working copy to the named revision;
`git fetch` and a successful `pull --ff-only` at the pinned revision leave the
checked-out revision unchanged in this model. -/
structure WorldState where
  dirs : List String
  revs : List (String × String)
  deriving DecidableEq

/-- Lines 80-92 of fetch_dependencies.py: after a successful clone or fetch
(`doCheckout == True`), run `git checkout reqdCommit` and then
`git pull --ff-only origin reqdCommit`, both in `path`, returning False on the
first non-zero exit code. -/
def checkoutAndPull (exec : GitCmd → Int) (path reqdCommit : String)
    (st : WorldState) : Bool × List Ev × WorldState :=
  let c1 := GitCmd.checkout path reqdCommit
  let t1 := [Ev.log ("Checking out required commit: " ++ reqdCommit), Ev.cmd c1]
  if exec c1 = 0 then
    let st1 : WorldState := ⟨st.dirs, (path, reqdCommit) :: st.revs⟩
    let c2 := GitCmd.pullFF path ("origin") reqdCommit
    let t2 := t1 ++
      [Ev.log ("Ensuring any branch is on the head using git pull --ff-only origin " ++ reqdCommit),
       Ev.cmd c2]
    if exec c2 = 0 then (true, t2, st1)
    else (false, t2 ++ [Ev.log ("git merge failed with return code: " ++ toString (exec c2))], st1)
  else (false, t1 ++ [Ev.log ("git checkout failed with return code: " ++ toString (exec c1))], st)

/-- Lines 45-92: the body of the `for gitRepo in gitMapping` loop for one
entry.  `resolve` models `os.path.normpath(os.path.join(scriptRoot, ...))`
(lines 47-50).  The `required` field of the entry (index 2 of the manifest row) is
never read by the loop. -/
def processEntry (exec : GitCmd → Int) (resolve : String → String)
    (e : GitEntry) (update : Bool) (st : WorldState) : Bool × List Ev × WorldState :=
  let path := resolve e.localPath
  if st.dirs.contains path = false then
    let c := GitCmd.clone e.gitRepo path
    let t := [Ev.log ("Directory " ++ path ++ " does not exist, using git clone to get latest from " ++ e.gitRepo),
              Ev.cmd c]
    if exec c = 0 then
      let r := checkoutAndPull exec path e.reqdCommit ⟨path :: st.dirs, st.revs⟩
      (r.1, t ++ r.2.1, r.2.2)
    else (false, t ++ [Ev.log ("git clone failed with return code: " ++ toString (exec c))], st)
  else if update then
    let c := GitCmd.fetchTags path
    let t := [Ev.log ("Directory " ++ path ++ " exists, using git fetch --tags to get latest from " ++ e.gitRepo),
              Ev.cmd c]
    if exec c = 0 then
      let r := checkoutAndPull exec path e.reqdCommit st
      (r.1, t ++ r.2.1, r.2.2)
    else (false, t ++ [Ev.log ("git fetch failed with return code: " ++ toString (exec c))], st)
  else
    (true, [Ev.log ("Git Dependency " ++ e.gitRepo ++ " found and not updated")], st)

/-- Lines 44-94: iterate the manifest in order (Python dicts iterate in
insertion order), returning False on the first failing entry (the early
`return False` statements) and True when the loop runs to completion. -/
def updateGitDependencies (exec : GitCmd → Int) (resolve : String → String) :
    List GitEntry → Bool → WorldState → Bool × List Ev × WorldState
  | [], _, st => (true, [], st)
  | e :: rest, update, st =>
    let r := processEntry exec resolve e update st
    if r.1 then
      let r2 := updateGitDependencies exec resolve rest update r.2.2
      (r2.1, r.2.1 ++ r2.2.1, r2.2.2)
    else (false, r.2.1, r.2.2)

/-- Lines 97-107: run `git --version` through `subprocess.check_output` (which
raises on a non-zero exit — modelled as `none`), then run
updateGitDependencies; the `internal` parameter is accepted and never
consulted.  The logPrint of the captured version text is elided (its content
comes from the external tool, not from this code). -/
def doFetchDependencies (exec : GitCmd → Int) (resolve : String → String)
    (gitMapping : List GitEntry) (update internal : Bool) (st : WorldState) :
    Option (Bool × List Ev × WorldState) :=
  if exec GitCmd.version = 0 then
    let r := updateGitDependencies exec resolve gitMapping update st
    some (if r.1 then true else false, Ev.cmd GitCmd.version :: r.2.1, r.2.2)
  else none

/-- build/dependency_map.py line 18. -/
def github_tools : String := "https://github.com/GPUOpen-Tools/"

/-- build/dependency_map.py line 19. -/
def github_root : String := "https://github.com/"

/-- build/dependency_map.py lines 23-28: the static manifest, a constant of
the embedding (it is a module-level literal, built once and never mutated). -/
def git_mapping : List GitEntry :=
  [⟨github_tools ++ "QtCommon", "../external/qt_common", "v3.12.0", true⟩,
   ⟨github_tools ++ "UpdateCheckApi", "../external/update_check_api", "v2.1.0", true⟩,
   ⟨github_tools ++ "system_info_utils", "../external/system_info_utils",
      "88a338a01949f8d8bad60a30b78b65300fd13a9f", false⟩,
   ⟨github_root ++ "GPUOpen-Drivers/libamdrdf", "../external/rdf", "v1.1.2", true⟩]

/-- The commands among a trace of events. -/
def cmds (tr : List Ev) : List GitCmd :=
  tr.filterMap fun ev => match ev with | .cmd c => some c | .log _ => none

/-
  Embedding of build/pre_build.py.  The script is straight-line code executed
  at import time; we model the flow from line 106 (`mkdirPrint(args.output)`)
  to the final `sys.exit(0)` (line 344) as a function of the parsed arguments
  and an environment of oracles for the filesystem and the spawned processes.
  The embedding fixes `sys.platform` to the posix else-branches (Linux): the
  win32/darwin only argument handling and generator selection are not
  modelled.  `os.path.join(a, b)` on posix (with b relative) is `a ++ "/" ++ b`;
  `os.path.normpath` and `os.path.expanduser` are oracle parameters.
-/

/-- The command-line arguments of pre_build.py relevant on Linux
(lines 44-66), with their parser defaults documented at the parser:
qt_root "~/Qt", qt "5.12.6", output = OS specific subdirectory. -/
structure Args where
  qt_root : String
  qt : String
  clean : Bool
  no_qt : Bool
  internal : Bool
  disable_break : Bool
  update : Bool
  output : String
  build : Bool
  build_jobs : String
  deriving DecidableEq

/-- Environment oracles for pre_build.py: `os.path.exists`, whether
`shutil.rmtree` succeeds on a directory, `os.path.expanduser`,
`os.path.normpath`, `distutils.spawn.find_executable`, and the exit code of a
spawned process given its argument list and working directory (`""` = the
inherited cwd, as for the `make` calls). -/
structure PbEnv where
  pathExists : String → Bool
  rmtreeOk : String → Bool
  expanduser : String → String
  normpath : String → String
  findExecutable : String → Bool
  runProc : List String → String → Int

/-- Observable actions of pre_build.py: console prints, directory creation
and removal, the call into fetch_dependencies.doFetchDependencies (line 140),
and the spawned cmake and make processes. -/
inductive Action where
  | print (s : String)
  | mkdir (d : String)
  | rmdir (d : String)
  | fetchDeps (update internal : Bool)
  | runCmake (cmakeArgs : List String) (cwd : String)
  | runMake (makeArgs : List String)
  deriving DecidableEq

/-- How a run of pre_build.py ends: `sys.exit(code)`, or an uncaught Python
exception (e.g. `subprocess.check_output` raising in doFetchDependencies). -/
inductive Outcome where
  | exited (code : Int)
  | crashed
  deriving DecidableEq

/-- The value of os.path.basename for pre_build.py (line 34). -/
def preBuildScriptName : String := "pre_build.py"

/-- logPrint (lines 79-80): message with the script-name preamble. -/
def logLine (msg : String) : String := "\n" ++ preBuildScriptName ++ ": " ++ msg

/-- logErrorAndExit (lines 83-86): the diagnostic line it prints, carrying the
ERROR marker and the script-name preamble before the message. -/
def errLine (msg : String) : String := "\nERROR: " ++ preBuildScriptName ++ ": " ++ msg

/-- mkdirPrint (lines 100-103): create a directory (with a log line) only when
it does not already exist.  `os.makedirs` is assumed not to raise. -/
def mkdirPrint (env : PbEnv) (dir : String) : List Action :=
  if env.pathExists dir then []
  else [Action.print (logLine ("Creating Directory: " ++ dir)), Action.mkdir dir]

/-- rmdirPrint (lines 89-97): log, then remove the directory if it exists;
a `shutil.rmtree` failure goes to logErrorAndExit (exit -1).  The ASCII quote
in the original message about a missing directory, and the appended exception text
`str(e)` are elided from the message strings. -/
def rmdirPrint (env : PbEnv) (dir : String) : List Action × Option Outcome :=
  let t := [Action.print (logLine ("Removing directory - " ++ dir))]
  if env.pathExists dir then
    if env.rmtreeOk dir then (t ++ [Action.rmdir dir], none)
    else (t ++ [Action.print (errLine ("Failed to delete directory - " ++ dir))],
          some (Outcome.exited (-1)))
  else (t ++ [Action.print (logLine ("    " ++ dir ++ " does not exist!"))], none)

/-- Sequencing of script steps that may terminate the process early
(sys.exit inside a helper): a step returns its actions and `some outcome`
when the process terminated during the step. -/
def andThen (r : List Action × Option Outcome) (k : Unit → List Action × Option Outcome) :
    List Action × Option Outcome :=
  match r with
  | (t, some o) => (t, some o)
  | (t, none) => let s := k (); (t ++ s.1, s.2)

/-- Lines 72-74: the suffix appended for internal builds. -/
def internalSuffix (args : Args) : String := if args.internal then "-Internal" else ""

/-- The Python string operator `needle in hay`, for the non-empty needles used at
lines 254-256. -/
def pyContains (hay needle : String) : Bool := (hay.splitOn needle).length != 1

/-- Lines 170-191: probe the Qt installation root.  Returns the resolved path
before the `qtLeaf` suffix is appended, or the accumulated
qtPathNotFoundError message handed to logErrorAndExit.  The check on line 182
compares args.qt_root against the parser default, which is "~/Qt" on
Linux. -/
def locateQt (env : PbEnv) (args : Args) : Except String String :=
  let qtExpandedRoot := env.expanduser args.qt_root
  let e0 := "Unable to find Qt root dir. Use --qt-root to specify\n    Locations checked:"
  let p1 := env.normpath (qtExpandedRoot ++ "/" ++ "Qt" ++ args.qt ++ "/" ++ args.qt)
  if env.pathExists p1 then Except.ok p1 else
  let e1 := e0 ++ "\n      " ++ p1
  let p2 := env.normpath (qtExpandedRoot ++ "/" ++ args.qt)
  if env.pathExists p2 then Except.ok p2 else
  let e2 := e1 ++ "\n      " ++ p2
  if args.qt_root == "~/Qt" then
    let p3 := env.normpath (qtExpandedRoot ++ "/../" ++ "Qt" ++ args.qt ++ "/" ++ args.qt)
    if env.pathExists p3 then Except.ok p3 else
    let e3 := e2 ++ "\n      " ++ p3
    let p4 := env.normpath (qtExpandedRoot ++ "/../" ++ args.qt)
    if env.pathExists p4 then Except.ok p4 else Except.error (e3 ++ "\n      " ++ p4)
  else Except.error e2

/-- generateConfig (lines 217-271) for the Linux branches: config is "debug"
or "release", the generator is "Unix Makefiles", and the cmake invocation
runs with cwd = cmakeDir.  A non-zero cmake exit, a missing cmake executable,
or an unknown configuration goes to logErrorAndExit. -/
def generateConfig (env : PbEnv) (args : Args) (scriptRoot cmakeOutputDir qtPath : String)
    (config : String) : List Action × Option Outcome :=
  let cmakeDir := cmakeOutputDir ++ "/" ++ (config ++ internalSuffix args)
  let t1 := mkdirPrint env cmakeDir
  let cmakelistPath := scriptRoot ++ "/" ++ env.normpath ("..")
  let releaseOutputDir := args.output ++ "/" ++ ("release" ++ internalSuffix args)
  let debugOutputDir := args.output ++ "/" ++ ("debug" ++ internalSuffix args)
  let a0 := if args.no_qt then ["cmake", cmakelistPath, "-DHEADLESS=TRUE"]
            else ["cmake", cmakelistPath, "-DCMAKE_PREFIX_PATH=" ++ qtPath, "-G", "Unix Makefiles"]
  let a1 := if args.internal then a0 ++ ["-DINTERNAL_BUILD:BOOL=TRUE"] else a0
  let a2 := if args.disable_break then a1 ++ ["-DDISABLE_RGP_DEBUG_BREAK:BOOL=TRUE"] else a1
  let a3 := a2 ++ ["-DCMAKE_RUNTIME_OUTPUT_DIRECTORY_RELEASE=" ++ releaseOutputDir,
                   "-DCMAKE_LIBRARY_OUTPUT_DIRECTORY_RELEASE=" ++ releaseOutputDir,
                   "-DCMAKE_RUNTIME_OUTPUT_DIRECTORY_DEBUG=" ++ debugOutputDir,
                   "-DCMAKE_LIBRARY_OUTPUT_DIRECTORY_DEBUG=" ++ debugOutputDir]
  if pyContains (config.toUpper) "RELEASE" || pyContains (config.toUpper) "DEBUG" then
    let a4 := if pyContains (config.toUpper) "RELEASE" then a3 ++ ["-DCMAKE_BUILD_TYPE=Release"]
              else a3 ++ ["-DCMAKE_BUILD_TYPE=Debug"]
    if env.findExecutable ("cmake") = false then
      (t1 ++ [Action.print (errLine ("cmake not found"))], some (Outcome.exited (-1)))
    else
      let rc := env.runProc a4 cmakeDir
      if rc = 0 then (t1 ++ [Action.runCmake a4 cmakeDir], none)
      else (t1 ++ [Action.runCmake a4 cmakeDir,
                   Action.print (errLine ("cmake failed with " ++ toString rc))],
            some (Outcome.exited (-1)))
  else
    (t1 ++ [Action.print (errLine ("unknown configuration: " ++ config))],
     some (Outcome.exited (-1)))

/-- Lines 283-339, Linux branch, for one configuration: run make on the
config-specific makefile directory, then make Documentation; each non-zero
exit goes to logErrorAndExit. -/
def buildConfig (env : PbEnv) (args : Args) (cmakeOutputDir config : String) :
    List Action × Option Outcome :=
  let t0 := [Action.print (logLine ("\nBuilding " ++ config ++ " configuration\n"))]
  let makeDir := cmakeOutputDir ++ "/" ++ (config ++ internalSuffix args)
  let makeArgs := ["make", "-j" ++ args.build_jobs, "-C", makeDir]
  let t1 := t0 ++ [Action.print (logLine ("Building configuration: " ++ config)),
                   Action.runMake makeArgs]
  let rc := env.runProc makeArgs ("")
  if rc = 0 then
    let dArgs := makeArgs ++ ["Documentation"]
    let t2 := t1 ++ [Action.print (logLine ("Building documentation for configuration: " ++ config)),
                     Action.runMake dArgs]
    let rc2 := env.runProc dArgs ("")
    if rc2 = 0 then (t2, none)
    else (t2 ++ [Action.print (errLine ("make Documentation failed with " ++ toString rc2))],
          some (Outcome.exited (-1)))
  else (t1 ++ [Action.print (errLine ("make failed with " ++ toString rc))],
        some (Outcome.exited (-1)))

/-- build/pre_build.py, lines 106-344, Linux branches: ensure the output root
exists, compute cmakeOutputDir = output/make (line 114); on --clean delete the
cmake output directory and the per-config build output directories and exit 0
(lines 125-136); otherwise call fetch_dependencies.doFetchDependencies and
exit -1 if it returns False (lines 138-141), create the cmake output
directory, locate Qt, generate the debug and release configurations,
optionally build them, and exit 0.  The final timing logPrint (lines 342-343)
depends on the wall clock and is elided. -/
def preBuild (env : PbEnv) (exec : GitCmd → Int) (resolve : String → String)
    (gitMapping : List GitEntry) (args : Args) (scriptRoot : String) (st : WorldState) :
    List Action × Outcome :=
  let t0 := mkdirPrint env args.output
  let cmakeOutputDir := args.output ++ "/" ++ "make"
  if args.clean then
    let r :=
      andThen (rmdirPrint env cmakeOutputDir) (fun _ =>
      andThen (rmdirPrint env (args.output ++ "/" ++ ("debug" ++ internalSuffix args))) (fun _ =>
      andThen (rmdirPrint env (args.output ++ "/" ++ ("release" ++ internalSuffix args))) (fun _ =>
      ([], some (Outcome.exited 0)))))
    (t0 ++ [Action.print (logLine ("Cleaning build ...\n"))] ++ r.1,
     r.2.getD Outcome.crashed)
  else
    let t1 := t0 ++ [Action.print (logLine ("Fetching project dependencies ...\n"))]
    match doFetchDependencies exec resolve gitMapping args.update args.internal st with
    | none => (t1, Outcome.crashed)
    | some r =>
      let t2 := t1 ++ [Action.fetchDeps args.update args.internal]
      if r.1 = false then
        (t2 ++ [Action.print (errLine ("Unable to retrieve dependencies"))], Outcome.exited (-1))
      else
        let t3 := t2 ++ mkdirPrint env cmakeOutputDir
        match locateQt env args with
        | Except.error e => (t3 ++ [Action.print (errLine e)], Outcome.exited (-1))
        | Except.ok qtBase =>
          let qtPath := env.normpath (qtBase ++ "/" ++ "gcc_64")
          if env.pathExists qtPath = false && args.no_qt = false then
            (t3 ++ [Action.print (errLine ("QT Path does not exist - " ++ qtPath))],
             Outcome.exited (-1))
          else
            let t4 := t3 ++ [Action.print (logLine ("\nGenerating build files ...\n"))]
            let rg :=
              andThen (generateConfig env args scriptRoot cmakeOutputDir qtPath ("debug")) (fun _ =>
              andThen (generateConfig env args scriptRoot cmakeOutputDir qtPath ("release")) (fun _ =>
              if args.build then
                andThen (buildConfig env args cmakeOutputDir ("debug")) (fun _ =>
                buildConfig env args cmakeOutputDir ("release"))
              else ([], none)))
            (t4 ++ rg.1, rg.2.getD (Outcome.exited 0))

/-- Is this action an invocation of the build-file generator (cmake)? -/
def isRunCmake (a : Action) : Bool := match a with | Action.runCmake _ _ => true | _ => false

/-- Is this action the call into the dependency synchronizer? -/
def isFetchDeps (a : Action) : Bool := match a with | Action.fetchDeps _ _ => true | _ => false

/-- Is this action an invocation of make? -/
def isRunMake (a : Action) : Bool := match a with | Action.runMake _ => true | _ => false

/-- Scanner for `the synchronizer is called before any generator invocation`:
walks the action trace keeping a flag recording whether the fetchDeps call has
been seen, and fails on a cmake invocation before it. -/
def syncAux (seen : Bool) : List Action → Bool
  | [] => true
  | a :: rest =>
    match a with
    | Action.fetchDeps _ _ => syncAux true rest
    | Action.runCmake _ _ => seen && syncAux seen rest
    | _ => syncAux seen rest

/-- Every generator (cmake) invocation in the trace is preceded by the
synchronizer call. -/
def syncBeforeGen (tr : List Action) : Bool := syncAux false tr

/-- Commands issued by a successful maintenance pass on an existing working
copy: fetch, checkout, or fast-forward pull (never clone, never version). -/
def isMaintenance (c : GitCmd) : Bool :=
  match c with
  | GitCmd.fetchTags _ => true
  | GitCmd.checkout _ _ => true
  | GitCmd.pullFF _ _ _ => true
  | _ => false

/-- The dirs component after the entry with resolved path `p` has been processed
successfully: clone adds the directory when missing. -/
def addDir (p : String) (d : List String) : List String :=
  if d.contains p then d else p :: d

/-- The directories present after a successful `allow_update = true` pass. -/
def finalDirs (resolve : String → String) : List GitEntry → List String → List String
  | [], d => d
  | e :: rest, d => finalDirs resolve rest (addDir (resolve e.localPath) d)

/-- The (path, revision) pairs a successful `allow_update = true` pass checks
out, in manifest order. -/
def pushes (resolve : String → String) (mf : List GitEntry) : List (String × String) :=
  mf.map (fun e => (resolve e.localPath, e.reqdCommit))

/-- Stub exit-code oracle on which every command succeeds. -/
def execOk : GitCmd → Int := fun _ => 0

/-- Manifest entry of the specification scenario in section 8:
manifest maps "repoA" to ("./dep_a", "v1.0", required = true). -/
def entryA : GitEntry := ⟨"repoA", "./dep_a", "v1.0", true⟩

/-- Empty starting filesystem. -/
def st0 : WorldState := ⟨[], []⟩

/-- Stub oracle on which the checkout of the working copy at "./b" fails and
everything else succeeds. -/
def execFailCheckoutB : GitCmd → Int :=
  fun c => match c with
  | GitCmd.checkout ("./b") _ => 1
  | _ => 0

/-- Stub oracle on which `git --version` succeeds and every other command
fails. -/
def execCloneFails : GitCmd → Int :=
  fun c => match c with
  | GitCmd.version => 0
  | _ => 1

/-- Three-entry manifest for the fail-fast scenario (entry 2 of 3 fails its
checkout step). -/
def eA2 : GitEntry := ⟨"rA", "./a", "v1", true⟩

def eB : GitEntry := ⟨"rB", "./b", "v1", true⟩

def eC : GitEntry := ⟨"rC", "./c", "v1", true⟩

/-- Stub pre_build environment: no path exists, rmtree succeeds, path
functions are the identity, cmake is on the PATH, every process exits 0. -/
def envNone : PbEnv := ⟨fun _ => false, fun _ => true, id, id, fun _ => true, fun _ _ => 0⟩

/-- Concrete arguments: a --clean run with output directory "out". -/
def argsClean : Args := ⟨"~/Qt", "5.12.6", true, false, false, false, false, "out", false, "4"⟩

/-- Concrete arguments: a default (non-clean) run with --update. -/
def argsFetch : Args := ⟨"~/Qt", "5.12.6", false, false, false, false, true, "out", false, "4"⟩


theorem processEntry_notDir (exec : GitCmd → Int) (resolve : String → String)
    (e : GitEntry) (u : Bool) (st : WorldState)
    (h0 : st.dirs.contains (resolve e.localPath) = false) :
    processEntry exec resolve e u st =
      (let c := GitCmd.clone e.gitRepo (resolve e.localPath)
       let t := [Ev.log ("Directory " ++ resolve e.localPath ++ " does not exist, using git clone to get latest from " ++ e.gitRepo),
                 Ev.cmd c]
       if exec c = 0 then
         let r := checkoutAndPull exec (resolve e.localPath) e.reqdCommit ⟨resolve e.localPath :: st.dirs, st.revs⟩
         (r.1, t ++ r.2.1, r.2.2)
       else (false, t ++ [Ev.log ("git clone failed with return code: " ++ toString (exec c))], st)) := by
  unfold processEntry
  rw [if_pos h0]

theorem processEntry_isDir_update (exec : GitCmd → Int) (resolve : String → String)
    (e : GitEntry) (st : WorldState)
    (h0 : st.dirs.contains (resolve e.localPath) = true) :
    processEntry exec resolve e true st =
      (let c := GitCmd.fetchTags (resolve e.localPath)
       let t := [Ev.log ("Directory " ++ resolve e.localPath ++ " exists, using git fetch --tags to get latest from " ++ e.gitRepo),
                 Ev.cmd c]
       if exec c = 0 then
         let r := checkoutAndPull exec (resolve e.localPath) e.reqdCommit st
         (r.1, t ++ r.2.1, r.2.2)
       else (false, t ++ [Ev.log ("git fetch failed with return code: " ++ toString (exec c))], st)) := by
  unfold processEntry
  rw [if_neg (by rw [h0]; simp), if_pos rfl]

theorem processEntry_isDir_noUpdate (exec : GitCmd → Int) (resolve : String → String)
    (e : GitEntry) (st : WorldState)
    (h0 : st.dirs.contains (resolve e.localPath) = true) :
    processEntry exec resolve e false st =
      (true, [Ev.log ("Git Dependency " ++ e.gitRepo ++ " found and not updated")], st) := by
  unfold processEntry
  rw [if_neg (by rw [h0]; simp)]
  rfl

theorem cmds_append (t1 t2 : List Ev) : cmds (t1 ++ t2) = cmds t1 ++ cmds t2 := by
  simp [cmds]

/-- Clone branch with the clone command succeeding: continue with
checkout-and-pull on the state extended with the cloned directory. -/
theorem processEntry_clone_ok (exec : GitCmd → Int) (resolve : String → String)
    (e : GitEntry) (u : Bool) (st : WorldState)
    (h0 : st.dirs.contains (resolve e.localPath) = false)
    (h1 : exec (GitCmd.clone e.gitRepo (resolve e.localPath)) = 0) :
    processEntry exec resolve e u st =
      ((checkoutAndPull exec (resolve e.localPath) e.reqdCommit
          ⟨resolve e.localPath :: st.dirs, st.revs⟩).1,
       [Ev.log ("Directory " ++ resolve e.localPath ++ " does not exist, using git clone to get latest from " ++ e.gitRepo),
        Ev.cmd (GitCmd.clone e.gitRepo (resolve e.localPath))] ++
         (checkoutAndPull exec (resolve e.localPath) e.reqdCommit
            ⟨resolve e.localPath :: st.dirs, st.revs⟩).2.1,
       (checkoutAndPull exec (resolve e.localPath) e.reqdCommit
          ⟨resolve e.localPath :: st.dirs, st.revs⟩).2.2) := by
  rw [processEntry_notDir exec resolve e u st h0]
  simp [h1]

/-- Clone branch with the clone command failing: stop with False. -/
theorem processEntry_clone_fail (exec : GitCmd → Int) (resolve : String → String)
    (e : GitEntry) (u : Bool) (st : WorldState)
    (h0 : st.dirs.contains (resolve e.localPath) = false)
    (h1 : ¬ exec (GitCmd.clone e.gitRepo (resolve e.localPath)) = 0) :
    processEntry exec resolve e u st =
      (false,
       [Ev.log ("Directory " ++ resolve e.localPath ++ " does not exist, using git clone to get latest from " ++ e.gitRepo),
        Ev.cmd (GitCmd.clone e.gitRepo (resolve e.localPath)),
        Ev.log ("git clone failed with return code: " ++
          toString (exec (GitCmd.clone e.gitRepo (resolve e.localPath))))],
       st) := by
  rw [processEntry_notDir exec resolve e u st h0]
  simp [h1]

/-- Fetch branch with the fetch command succeeding. -/
theorem processEntry_fetch_ok (exec : GitCmd → Int) (resolve : String → String)
    (e : GitEntry) (st : WorldState)
    (h0 : st.dirs.contains (resolve e.localPath) = true)
    (h1 : exec (GitCmd.fetchTags (resolve e.localPath)) = 0) :
    processEntry exec resolve e true st =
      ((checkoutAndPull exec (resolve e.localPath) e.reqdCommit st).1,
       [Ev.log ("Directory " ++ resolve e.localPath ++ " exists, using git fetch --tags to get latest from " ++ e.gitRepo),
        Ev.cmd (GitCmd.fetchTags (resolve e.localPath))] ++
         (checkoutAndPull exec (resolve e.localPath) e.reqdCommit st).2.1,
       (checkoutAndPull exec (resolve e.localPath) e.reqdCommit st).2.2) := by
  rw [processEntry_isDir_update exec resolve e st h0]
  simp [h1]

/-- Fetch branch with the fetch command failing: stop with False. -/
theorem processEntry_fetch_fail (exec : GitCmd → Int) (resolve : String → String)
    (e : GitEntry) (st : WorldState)
    (h0 : st.dirs.contains (resolve e.localPath) = true)
    (h1 : ¬ exec (GitCmd.fetchTags (resolve e.localPath)) = 0) :
    processEntry exec resolve e true st =
      (false,
       [Ev.log ("Directory " ++ resolve e.localPath ++ " exists, using git fetch --tags to get latest from " ++ e.gitRepo),
        Ev.cmd (GitCmd.fetchTags (resolve e.localPath)),
        Ev.log ("git fetch failed with return code: " ++
          toString (exec (GitCmd.fetchTags (resolve e.localPath))))],
       st) := by
  rw [processEntry_isDir_update exec resolve e st h0]
  simp [h1]

/-- Result and commands of checkoutAndPull in each of its three outcomes. -/
theorem checkoutAndPull_spec (exec : GitCmd → Int) (path rc : String) (st : WorldState) :
    ((checkoutAndPull exec path rc st).1 = true →
        cmds (checkoutAndPull exec path rc st).2.1 =
            [GitCmd.checkout path rc, GitCmd.pullFF path ("origin") rc] ∧
          exec (GitCmd.checkout path rc) = 0 ∧ exec (GitCmd.pullFF path ("origin") rc) = 0) ∧
      ((checkoutAndPull exec path rc st).1 = false →
        ∃ p c, cmds (checkoutAndPull exec path rc st).2.1 = p ++ [c] ∧
          (∀ c2 ∈ p, exec c2 = 0) ∧ exec c ≠ 0) := by
  by_cases h1 : exec (GitCmd.checkout path rc) = 0
  · by_cases h2 : exec (GitCmd.pullFF path ("origin") rc) = 0
    · constructor
      · intro _
        refine ⟨?_, h1, h2⟩
        simp [checkoutAndPull, h1, h2, cmds]
      · intro hF
        simp [checkoutAndPull, h1, h2] at hF
    · constructor
      · intro hT
        simp [checkoutAndPull, h1, h2] at hT
      · intro _
        refine ⟨[GitCmd.checkout path rc], GitCmd.pullFF path ("origin") rc, ?_, ?_, h2⟩
        · simp [checkoutAndPull, h1, h2, cmds]
        · intro c2 hc2
          simp at hc2
          subst hc2
          exact h1
  · constructor
    · intro hT
      simp [checkoutAndPull, h1] at hT
    · intro _
      refine ⟨[], GitCmd.checkout path rc, ?_, ?_, h1⟩
      · simp [checkoutAndPull, h1, cmds]
      · intro c2 hc2
        simp at hc2

/-- Result and commands of processEntry: on success every issued command
exited 0; on failure the issued commands are a run of successes followed by
one failing command. -/
theorem processEntry_spec (exec : GitCmd → Int) (resolve : String → String)
    (e : GitEntry) (u : Bool) (st : WorldState) :
    ((processEntry exec resolve e u st).1 = true →
        ∀ c ∈ cmds (processEntry exec resolve e u st).2.1, exec c = 0) ∧
      ((processEntry exec resolve e u st).1 = false →
        ∃ p c, cmds (processEntry exec resolve e u st).2.1 = p ++ [c] ∧
          (∀ c2 ∈ p, exec c2 = 0) ∧ exec c ≠ 0) := by
  by_cases h0 : st.dirs.contains (resolve e.localPath) = false
  · by_cases h1 : exec (GitCmd.clone e.gitRepo (resolve e.localPath)) = 0
    · rw [processEntry_clone_ok exec resolve e u st h0 h1]
      have hcap := checkoutAndPull_spec exec (resolve e.localPath) e.reqdCommit
        ⟨resolve e.localPath :: st.dirs, st.revs⟩
      constructor
      · intro hT c hc
        dsimp only at hT hc
        rw [cmds_append] at hc
        simp only [List.mem_append] at hc
        rcases hc with hc | hc
        · simp [cmds] at hc
          subst hc
          exact h1
        · obtain ⟨heq, hc1, hc2⟩ := hcap.1 hT
          rw [heq] at hc
          simp at hc
          rcases hc with rfl | rfl
          · exact hc1
          · exact hc2
      · intro hF
        dsimp only at hF ⊢
        obtain ⟨p, c, hpc, hall, hfail⟩ := hcap.2 hF
        refine ⟨GitCmd.clone e.gitRepo (resolve e.localPath) :: p, c, ?_, ?_, hfail⟩
        · rw [cmds_append, hpc]
          simp [cmds]
        · intro c2 hc2
          simp at hc2
          rcases hc2 with rfl | hc2
          · exact h1
          · exact hall c2 hc2
    · rw [processEntry_clone_fail exec resolve e u st h0 h1]
      constructor
      · intro hT
        simp at hT
      · intro _
        refine ⟨[], GitCmd.clone e.gitRepo (resolve e.localPath), ?_, ?_, h1⟩
        · simp [cmds]
        · intro c2 hc2
          simp at hc2
  · rw [Bool.not_eq_false] at h0
    cases u with
    | false =>
      rw [processEntry_isDir_noUpdate exec resolve e st h0]
      constructor
      · intro _ c hc
        simp [cmds] at hc
      · intro hF
        simp at hF
    | true =>
      by_cases h1 : exec (GitCmd.fetchTags (resolve e.localPath)) = 0
      · rw [processEntry_fetch_ok exec resolve e st h0 h1]
        have hcap := checkoutAndPull_spec exec (resolve e.localPath) e.reqdCommit st
        constructor
        · intro hT c hc
          dsimp only at hT hc
          rw [cmds_append] at hc
          simp only [List.mem_append] at hc
          rcases hc with hc | hc
          · simp [cmds] at hc
            subst hc
            exact h1
          · obtain ⟨heq, hc1, hc2⟩ := hcap.1 hT
            rw [heq] at hc
            simp at hc
            rcases hc with rfl | rfl
            · exact hc1
            · exact hc2
        · intro hF
          dsimp only at hF ⊢
          obtain ⟨p, c, hpc, hall, hfail⟩ := hcap.2 hF
          refine ⟨GitCmd.fetchTags (resolve e.localPath) :: p, c, ?_, ?_, hfail⟩
          · rw [cmds_append, hpc]
            simp [cmds]
          · intro c2 hc2
            simp at hc2
            rcases hc2 with rfl | hc2
            · exact h1
            · exact hall c2 hc2
      · rw [processEntry_fetch_fail exec resolve e st h0 h1]
        constructor
        · intro hT
          simp at hT
        · intro _
          refine ⟨[], GitCmd.fetchTags (resolve e.localPath), ?_, ?_, h1⟩
          · simp [cmds]
          · intro c2 hc2
            simp at hc2

/-- A successful pass means every spawned command exited 0. -/
theorem updateGit_ok_all (exec : GitCmd → Int) (resolve : String → String) :
    ∀ (mf : List GitEntry) (u : Bool) (st : WorldState),
    (updateGitDependencies exec resolve mf u st).1 = true →
    ∀ c ∈ cmds (updateGitDependencies exec resolve mf u st).2.1, exec c = 0 := by
  intro mf
  induction mf with
  | nil =>
    intro u st h c hc
    simp [updateGitDependencies, cmds] at hc
  | cons e rest ih =>
    intro u st h c hc
    simp only [updateGitDependencies] at h hc
    by_cases hr : (processEntry exec resolve e u st).1 = true
    · rw [if_pos hr] at h hc
      dsimp only at h hc
      rw [cmds_append] at hc
      rcases List.mem_append.mp hc with hc | hc
      · exact (processEntry_spec exec resolve e u st).1 hr c hc
      · exact ih u _ h c hc
    · rw [if_neg hr] at h
      dsimp only at h
      simp at h

/-- A failed pass means the spawned commands are a run of successes followed
by a single failing command, with nothing after it. -/
theorem updateGit_fail_shape (exec : GitCmd → Int) (resolve : String → String) :
    ∀ (mf : List GitEntry) (u : Bool) (st : WorldState),
    (updateGitDependencies exec resolve mf u st).1 = false →
    ∃ p c, cmds (updateGitDependencies exec resolve mf u st).2.1 = p ++ [c] ∧
      (∀ c2 ∈ p, exec c2 = 0) ∧ exec c ≠ 0 := by
  intro mf
  induction mf with
  | nil =>
    intro u st h
    simp [updateGitDependencies] at h
  | cons e rest ih =>
    intro u st h
    simp only [updateGitDependencies] at h ⊢
    by_cases hr : (processEntry exec resolve e u st).1 = true
    · rw [if_pos hr] at h ⊢
      dsimp only at h ⊢
      obtain ⟨p, c, hpc, hall, hfail⟩ := ih u _ h
      refine ⟨cmds (processEntry exec resolve e u st).2.1 ++ p, c, ?_, ?_, hfail⟩
      · rw [cmds_append, hpc, List.append_assoc]
      · intro c2 hc2
        rcases List.mem_append.mp hc2 with hc2 | hc2
        · exact (processEntry_spec exec resolve e u st).1 hr c2 hc2
        · exact hall c2 hc2
    · rw [if_neg hr] at h ⊢
      dsimp only at h ⊢
      rw [Bool.not_eq_true] at hr
      exact (processEntry_spec exec resolve e u st).2 hr

/-- C10: updateGitDependencies returns True iff every git command it spawned
exited 0; a False return means the last spawned command failed, every
earlier one succeeded, and no further command was issued — exactly one
failing command observed. -/
theorem updateGit_result_characterization (exec : GitCmd → Int) (resolve : String → String)
    (mf : List GitEntry) (u : Bool) (st : WorldState) :
    ((updateGitDependencies exec resolve mf u st).1 = true ↔
        ∀ c ∈ cmds (updateGitDependencies exec resolve mf u st).2.1, exec c = 0) ∧
      ((updateGitDependencies exec resolve mf u st).1 = false →
        ∃ p c, cmds (updateGitDependencies exec resolve mf u st).2.1 = p ++ [c] ∧
          (∀ c2 ∈ p, exec c2 = 0) ∧ exec c ≠ 0) := by
  constructor
  · constructor
    · exact updateGit_ok_all exec resolve mf u st
    · intro hall
      by_contra hne
      rw [Bool.not_eq_true] at hne
      obtain ⟨p, c, hpc, _, hfail⟩ := updateGit_fail_shape exec resolve mf u st hne
      refine hfail (hall c ?_)
      rw [hpc]
      simp
  · exact updateGit_fail_shape exec resolve mf u st

/-- Definitional unfolding of updateGitDependencies on a cons cell. -/
theorem update_cons (exec : GitCmd → Int) (resolve : String → String)
    (e : GitEntry) (rest : List GitEntry) (u : Bool) (st : WorldState) :
    updateGitDependencies exec resolve (e :: rest) u st =
      (let r := processEntry exec resolve e u st
       if r.1 then
         let r2 := updateGitDependencies exec resolve rest u r.2.2
         (r2.1, r.2.1 ++ r2.2.1, r2.2.2)
       else (false, r.2.1, r.2.2)) := rfl

/-- Processing a concatenated manifest runs the first part, and runs the
second part only when the first succeeded, appending the traces. -/
theorem update_append (exec : GitCmd → Int) (resolve : String → String)
    (xs ys : List GitEntry) (u : Bool) (st : WorldState) :
    updateGitDependencies exec resolve (xs ++ ys) u st =
      (let r := updateGitDependencies exec resolve xs u st
       if r.1 then
         let r2 := updateGitDependencies exec resolve ys u r.2.2
         (r2.1, r.2.1 ++ r2.2.1, r2.2.2)
       else (false, r.2.1, r.2.2)) := by
  induction xs generalizing st with
  | nil => simp [updateGitDependencies]
  | cons e rest ih =>
    rw [List.cons_append, update_cons exec resolve e (rest ++ ys), update_cons exec resolve e rest]
    rcases hpe : processEntry exec resolve e u st with ⟨ok, tr, st2⟩
    cases ok
    · simp
    · simp only [ih st2]
      rcases hr2 : updateGitDependencies exec resolve rest u st2 with ⟨ok2, tr2, st3⟩
      cases ok2
      · simp
      · simp [List.append_assoc]

theorem addDir_of_contains (p : String) (d : List String) (h : d.contains p = true) :
    addDir p d = d := by
  have hm : p ∈ d := by simpa using h
  simp [addDir, hm]

theorem addDir_contains_self (p : String) (d : List String) :
    (addDir p d).contains p = true := by
  by_cases hm : p ∈ d
  · simp [addDir, hm]
  · simp [addDir, hm]

theorem addDir_contains_mono (p q : String) (d : List String) (h : d.contains q = true) :
    (addDir p d).contains q = true := by
  have hm : q ∈ d := by simpa using h
  by_cases h2 : p ∈ d
  · simp [addDir, h2, hm]
  · simp [addDir, h2, hm]

theorem finalDirs_contains_mono (resolve : String → String) :
    ∀ (mf : List GitEntry) (d : List String) (q : String),
    d.contains q = true → (finalDirs resolve mf d).contains q = true := by
  intro mf
  induction mf with
  | nil => intro d q h; simpa [finalDirs] using h
  | cons e rest ih =>
    intro d q h
    rw [finalDirs]
    exact ih _ q (addDir_contains_mono _ q d h)

theorem finalDirs_contains_entry (resolve : String → String) :
    ∀ (mf : List GitEntry) (d : List String), ∀ e ∈ mf,
    (finalDirs resolve mf d).contains (resolve e.localPath) = true := by
  intro mf
  induction mf with
  | nil => intro d e he; simp at he
  | cons e2 rest ih =>
    intro d e he
    rcases List.mem_cons.mp he with rfl | he
    · rw [finalDirs]
      exact finalDirs_contains_mono resolve rest _ _ (addDir_contains_self _ d)
    · rw [finalDirs]
      exact ih _ e he

theorem lookup_append_left :
    ∀ (l1 l2 : List (String × String)) (a : String),
    a ∈ l1.map Prod.fst → List.lookup a (l1 ++ l2) = List.lookup a l1 := by
  intro l1
  induction l1 with
  | nil => intro l2 a h; simp at h
  | cons hd tl ih =>
    intro l2 a h
    obtain ⟨k, v⟩ := hd
    by_cases hb : a = k
    · subst hb
      simp [List.lookup]
    · have hm : a ∈ tl.map Prod.fst := by
        simp only [List.map_cons, List.mem_cons] at h
        rcases h with h | h
        · exact absurd h hb
        · exact h
      rw [List.cons_append, List.lookup, List.lookup]
      have hbeq : (a == k) = false := by
        simp [hb]
      rw [hbeq]
      exact ih l2 a hm

theorem mem_pushes_fst (resolve : String → String) (mf : List GitEntry) (e : GitEntry)
    (he : e ∈ mf) :
    resolve e.localPath ∈ (pushes resolve mf).reverse.map Prod.fst := by
  simp only [pushes, List.map_reverse, List.mem_reverse, List.map_map, List.mem_map]
  exact ⟨e, he, rfl⟩

/-- When every command succeeds, processing one entry with update = true
succeeds and its final state adds the entry directory (clone case) and
prepends the checked-out (path, revision) pair. -/
theorem processEntry_true_allOk (exec : GitCmd → Int) (resolve : String → String)
    (h : ∀ c, exec c = 0) (e : GitEntry) (st : WorldState) :
    (processEntry exec resolve e true st).1 = true ∧
      (processEntry exec resolve e true st).2.2 =
        ⟨addDir (resolve e.localPath) st.dirs,
         (resolve e.localPath, e.reqdCommit) :: st.revs⟩ := by
  by_cases h0 : st.dirs.contains (resolve e.localPath) = false
  · rw [processEntry_clone_ok exec resolve e true st h0 (h _)]
    have hm : ¬ resolve e.localPath ∈ st.dirs := by simpa using h0
    constructor
    · dsimp only
      simp [checkoutAndPull, h]
    · dsimp only
      simp [checkoutAndPull, h, addDir, hm]
  · rw [Bool.not_eq_false] at h0
    have hm : resolve e.localPath ∈ st.dirs := by simpa using h0
    rw [processEntry_fetch_ok exec resolve e st h0 (h _)]
    constructor
    · dsimp only
      simp [checkoutAndPull, h]
    · dsimp only
      simp [checkoutAndPull, h, addDir, hm]

/-- When every command succeeds and the entry directory already exists, the
per-entry trace is exactly the fetch / checkout / fast-forward-pull sequence
(no clone). -/
theorem processEntry_fetch_trace_allOk (exec : GitCmd → Int) (resolve : String → String)
    (h : ∀ c, exec c = 0) (e : GitEntry) (st : WorldState)
    (h0 : st.dirs.contains (resolve e.localPath) = true) :
    processEntry exec resolve e true st =
      (true,
       [Ev.log ("Directory " ++ resolve e.localPath ++ " exists, using git fetch --tags to get latest from " ++ e.gitRepo),
        Ev.cmd (GitCmd.fetchTags (resolve e.localPath)),
        Ev.log ("Checking out required commit: " ++ e.reqdCommit),
        Ev.cmd (GitCmd.checkout (resolve e.localPath) e.reqdCommit),
        Ev.log ("Ensuring any branch is on the head using git pull --ff-only origin " ++ e.reqdCommit),
        Ev.cmd (GitCmd.pullFF (resolve e.localPath) "origin" e.reqdCommit)],
       ⟨st.dirs, (resolve e.localPath, e.reqdCommit) :: st.revs⟩) := by
  rw [processEntry_fetch_ok exec resolve e st h0 (h _)]
  simp [checkoutAndPull, h]

/-- When every command succeeds, a pass with update = true succeeds and its
final state is the manifest directories added to the filesystem and the
pinned revisions checked out in manifest order. -/
theorem updateGit_true_allOk (exec : GitCmd → Int) (resolve : String → String)
    (h : ∀ c, exec c = 0) :
    ∀ (mf : List GitEntry) (st : WorldState),
    (updateGitDependencies exec resolve mf true st).1 = true ∧
      (updateGitDependencies exec resolve mf true st).2.2 =
        ⟨finalDirs resolve mf st.dirs, (pushes resolve mf).reverse ++ st.revs⟩ := by
  intro mf
  induction mf with
  | nil =>
    intro st
    exact ⟨rfl, by simp [updateGitDependencies, finalDirs, pushes]⟩
  | cons e rest ih =>
    intro st
    obtain ⟨hok, hst⟩ := processEntry_true_allOk exec resolve h e st
    rw [update_cons]
    constructor
    · dsimp only
      rw [if_pos hok]
      dsimp only
      exact (ih _).1
    · dsimp only
      rw [if_pos hok]
      dsimp only
      rw [(ih _).2, hst]
      dsimp only
      simp only [finalDirs, pushes, List.map_cons, List.reverse_cons, List.append_assoc,
        List.singleton_append]

/-- When every command succeeds and every entry directory already exists, a
pass with update = true issues only fetch, checkout and fast-forward-pull
commands (in particular, no clone). -/
theorem updateGit_maintenance (exec : GitCmd → Int) (resolve : String → String)
    (h : ∀ c, exec c = 0) :
    ∀ (mf : List GitEntry) (st : WorldState),
    (∀ e ∈ mf, st.dirs.contains (resolve e.localPath) = true) →
    ∀ c ∈ cmds (updateGitDependencies exec resolve mf true st).2.1, isMaintenance c = true := by
  intro mf
  induction mf with
  | nil =>
    intro st hdirs c hc
    simp [updateGitDependencies, cmds] at hc
  | cons e rest ih =>
    intro st hdirs c hc
    have h0 := hdirs e (List.mem_cons_self e rest)
    obtain ⟨hok, hst⟩ := processEntry_true_allOk exec resolve h e st
    rw [update_cons] at hc
    dsimp only at hc
    rw [if_pos hok] at hc
    dsimp only at hc
    rw [cmds_append] at hc
    rcases List.mem_append.mp hc with hc | hc
    · rw [processEntry_fetch_trace_allOk exec resolve h e st h0] at hc
      dsimp only at hc
      simp only [cmds, List.filterMap_cons, List.filterMap_nil] at hc
      simp at hc
      rcases hc with rfl | rfl | rfl <;> rfl
    · refine ih ((processEntry exec resolve e true st).2.2) ?_ c hc
      intro e2 he2
      rw [hst]
      dsimp only
      rw [addDir_of_contains _ _ h0]
      exact hdirs e2 (List.mem_cons_of_mem _ he2)

/-- C5: idempotence of the synchronizer: when every command succeeds, a pass
with allow_update = true succeeds, a second identical pass also succeeds and
issues only fetch / checkout / fast-forward-pull commands (the clone step is
skipped for every entry because its directory exists after the first run),
and the final checked-out revision of every manifest entry equals the one
after the single run. -/
theorem updateGit_idempotent (exec : GitCmd → Int) (resolve : String → String)
    (mf : List GitEntry) (st : WorldState) (h : ∀ c, exec c = 0) :
    (updateGitDependencies exec resolve mf true st).1 = true ∧
      (updateGitDependencies exec resolve mf true
          (updateGitDependencies exec resolve mf true st).2.2).1 = true ∧
      (∀ c ∈ cmds (updateGitDependencies exec resolve mf true
          (updateGitDependencies exec resolve mf true st).2.2).2.1,
        isMaintenance c = true) ∧
      (∀ e ∈ mf,
        List.lookup (resolve e.localPath)
            (updateGitDependencies exec resolve mf true
                (updateGitDependencies exec resolve mf true st).2.2).2.2.revs =
          List.lookup (resolve e.localPath)
            (updateGitDependencies exec resolve mf true st).2.2.revs) := by
  obtain ⟨h1ok, h1st⟩ := updateGit_true_allOk exec resolve h mf st
  obtain ⟨h2ok, h2st⟩ :=
    updateGit_true_allOk exec resolve h mf (updateGitDependencies exec resolve mf true st).2.2
  refine ⟨h1ok, h2ok, ?_, ?_⟩
  · apply updateGit_maintenance exec resolve h
    intro e he
    rw [h1st]
    exact finalDirs_contains_entry resolve mf st.dirs e he
  · intro e he
    rw [h2st, h1st]
    dsimp only
    rw [lookup_append_left _ _ _ (mem_pushes_fst resolve mf e he),
      lookup_append_left _ _ _ (mem_pushes_fst resolve mf e he)]

/-- When checkout and pull both succeed, checkoutAndPull succeeds with the
four-event trace and records the checked-out revision. -/
theorem checkoutAndPull_ok (exec : GitCmd → Int) (path rc : String) (st : WorldState)
    (h2 : exec (GitCmd.checkout path rc) = 0)
    (h3 : exec (GitCmd.pullFF path ("origin") rc) = 0) :
    checkoutAndPull exec path rc st =
      (true,
       [Ev.log ("Checking out required commit: " ++ rc),
        Ev.cmd (GitCmd.checkout path rc),
        Ev.log ("Ensuring any branch is on the head using git pull --ff-only origin " ++ rc),
        Ev.cmd (GitCmd.pullFF path ("origin") rc)],
       ⟨st.dirs, (path, rc) :: st.revs⟩) := by
  simp [checkoutAndPull, h2, h3]

/-- C1: the synchronizer is fail-fast: for every manifest split as
`pre ++ e :: post` where the entries of `pre` all succeed and the processing
of entry `e` fails (one of its clone / fetch / checkout / fast-forward
commands exits non-zero), updateGitDependencies returns False and its result
is exactly that of the run over `pre ++ [e]`: the trace is the trace of `pre`
followed by the partial trace of `e`, so no command (or any event at all) is
issued for the entries of `post`. -/
theorem updateGit_failFast (exec : GitCmd → Int) (resolve : String → String)
    (u : Bool) (st : WorldState) (pre : List GitEntry) (e : GitEntry) (post : List GitEntry)
    (hpre : (updateGitDependencies exec resolve pre u st).1 = true)
    (he : (processEntry exec resolve e u
        (updateGitDependencies exec resolve pre u st).2.2).1 = false) :
    updateGitDependencies exec resolve (pre ++ e :: post) u st =
      (false,
       (updateGitDependencies exec resolve pre u st).2.1 ++
         (processEntry exec resolve e u
            (updateGitDependencies exec resolve pre u st).2.2).2.1,
       (processEntry exec resolve e u
          (updateGitDependencies exec resolve pre u st).2.2).2.2) := by
  rw [update_append]
  dsimp only
  rw [if_pos hpre, update_cons]
  dsimp only
  rw [if_neg (by rw [he]; simp)]

/-- Witness for C1 at the spec scenario `entry 2 of 3 fails its checkout
step`: the full run returns False and its trace stops inside entry 2 — entry
3 contributes nothing. -/
theorem updateGit_failFast_witness :
    (updateGitDependencies execFailCheckoutB id ([eA2] ++ eB :: [eC]) true st0).1 = false := by
  rw [updateGit_failFast execFailCheckoutB id true st0 [eA2] eB [eC] (by decide) (by decide)]

/-- C3: an entry whose resolved local_path already exists on disk is, when
allow_update is false, reported as found and not updated with no command
issued for it (its only event is that log line), the filesystem state is
passed unchanged to the remaining entries, and processing continues with
them. -/
theorem updateGit_foundNotUpdated (exec : GitCmd → Int) (resolve : String → String)
    (e : GitEntry) (rest : List GitEntry) (st : WorldState)
    (h : st.dirs.contains (resolve e.localPath) = true) :
    updateGitDependencies exec resolve (e :: rest) false st =
      ((updateGitDependencies exec resolve rest false st).1,
       Ev.log ("Git Dependency " ++ e.gitRepo ++ " found and not updated") ::
         (updateGitDependencies exec resolve rest false st).2.1,
       (updateGitDependencies exec resolve rest false st).2.2) := by
  rw [update_cons, processEntry_isDir_noUpdate exec resolve e st h]
  dsimp only
  rw [if_pos rfl]
  rfl

/-- Witness for C3 at the spec scenario: "./dep_a" already exists and
allow_update is false, so the run issues zero commands, reports the entry
found and not updated, and leaves the state unchanged. -/
theorem updateGit_foundNotUpdated_witness :
    updateGitDependencies execOk id [entryA] false ⟨["./dep_a"], []⟩ =
      (true, [Ev.log ("Git Dependency repoA found and not updated")], ⟨["./dep_a"], []⟩) := by
  rw [updateGit_foundNotUpdated execOk id entryA [] ⟨["./dep_a"], []⟩ (by decide)]
  decide

/-- C4 (counterexample to the claim as stated): in the specification scenario
(manifest maps "repoA" to ("./dep_a", "v1.0"), no "./dep_a" on disk, all
commands succeed) the issued fast-forward pull is not run against the
source_location "repoA": the trace contains no
`git pull --ff-only repoA v1.0` event and instead contains
`git pull --ff-only origin v1.0`. -/
theorem clonePull_usesOrigin_not_sourceLocation :
    Ev.cmd (GitCmd.pullFF ("./dep_a") "repoA" "v1.0") ∉
        (updateGitDependencies execOk id [entryA] true st0).2.1 ∧
      Ev.cmd (GitCmd.pullFF ("./dep_a") "origin" "v1.0") ∈
        (updateGitDependencies execOk id [entryA] true st0).2.1 := by
  decide

/-- C4 (amended): for every entry whose resolved local_path does not exist
and whose three commands all succeed, the synchronizer issues exactly
clone(source_location, local_path), then checkout(pinned_revision) in
local_path, then `git pull --ff-only origin pinned_revision` in local_path —
the pull names the remote "origin" (bound to source_location by the clone),
not the source_location URL itself — in that order, succeeds, and leaves the
working copy checked out at the pinned revision. -/
theorem updateGit_cloneSequence (exec : GitCmd → Int) (resolve : String → String)
    (e : GitEntry) (u : Bool) (st : WorldState)
    (h0 : st.dirs.contains (resolve e.localPath) = false)
    (h1 : exec (GitCmd.clone e.gitRepo (resolve e.localPath)) = 0)
    (h2 : exec (GitCmd.checkout (resolve e.localPath) e.reqdCommit) = 0)
    (h3 : exec (GitCmd.pullFF (resolve e.localPath) "origin" e.reqdCommit) = 0) :
    cmds (updateGitDependencies exec resolve [e] u st).2.1 =
        [GitCmd.clone e.gitRepo (resolve e.localPath),
         GitCmd.checkout (resolve e.localPath) e.reqdCommit,
         GitCmd.pullFF (resolve e.localPath) "origin" e.reqdCommit] ∧
      (updateGitDependencies exec resolve [e] u st).1 = true ∧
      List.lookup (resolve e.localPath)
          (updateGitDependencies exec resolve [e] u st).2.2.revs = some e.reqdCommit := by
  rw [update_cons, processEntry_clone_ok exec resolve e u st h0 h1,
    checkoutAndPull_ok exec (resolve e.localPath) e.reqdCommit _ h2 h3]
  dsimp only
  rw [if_pos rfl]
  refine ⟨?_, rfl, ?_⟩
  · simp [updateGitDependencies, cmds]
  · simp [updateGitDependencies, List.lookup]

/-- Witness for the amended C4 at the spec scenario entry. -/
theorem updateGit_cloneSequence_witness :
    cmds (updateGitDependencies execOk id [entryA] true st0).2.1 =
      [GitCmd.clone ("repoA") "./dep_a", GitCmd.checkout ("./dep_a") "v1.0",
       GitCmd.pullFF ("./dep_a") "origin" "v1.0"] :=
  (updateGit_cloneSequence execOk id entryA true st0 (by decide) (by decide)
    (by decide) (by decide)).1

/-- C9: noninterference of the internal flag: two calls of doFetchDependencies
that agree on everything but the `internal` argument return identical results
— the same command/event trace, the same reported boolean and the same final
state; the `internal` argument is never consulted. -/
theorem doFetch_internal_noninterference (exec : GitCmd → Int) (resolve : String → String)
    (gitMapping : List GitEntry) (update : Bool) (st : WorldState) (i1 i2 : Bool) :
    doFetchDependencies exec resolve gitMapping update i1 st =
      doFetchDependencies exec resolve gitMapping update i2 st := rfl

/-- Witness for C9 at concrete inputs. -/
theorem doFetch_internal_noninterference_witness :
    doFetchDependencies execOk id git_mapping true false st0 =
      doFetchDependencies execOk id git_mapping true true st0 :=
  doFetch_internal_noninterference execOk id git_mapping true st0 false true

/-- Witness for C10: on a run where every command succeeds the
characterization yields the True return. -/
theorem updateGit_result_characterization_witness :
    (updateGitDependencies execOk id [entryA] true st0).1 = true :=
  (updateGit_result_characterization execOk id [entryA] true st0).1.mpr (by decide)

/-- Witness for C5 at the spec scenario manifest. -/
theorem updateGit_idempotent_witness :
    (updateGitDependencies execOk id [entryA] true
        (updateGitDependencies execOk id [entryA] true st0).2.2).1 = true :=
  (updateGit_idempotent execOk id [entryA] st0 (fun _ => rfl)).2.1

/-- C2 (the gating the spec and the script header describe is absent): the
shipped manifest marks exactly system_info_utils as not required, yet a
doFetchDependencies run with internal = false still clones it and reports
success — the internal flag and the required field are never consulted. -/
theorem optionalDependency_fetched_without_internal :
    git_mapping.map (fun e => e.required) = [true, true, false, true] ∧
      (doFetchDependencies execOk id git_mapping true false st0).map (fun r => r.1) =
        some true ∧
      (doFetchDependencies execOk id git_mapping true false st0).map
          (fun r => r.2.1.contains
            (Ev.cmd (GitCmd.clone (github_tools ++ "system_info_utils")
              "../external/system_info_utils"))) = some true := by
  refine ⟨rfl, ?_, ?_⟩ <;> decide

/-- C8: in the static manifest git_mapping the local_path values are pairwise
distinct and the source_location URLs (the dict keys) are pairwise distinct;
the manifest is a module-level constant, constructed once and never
mutated. -/
theorem git_mapping_unique :
    (git_mapping.map (fun e => e.localPath)).Nodup ∧
      (git_mapping.map (fun e => e.gitRepo)).Nodup := by
  constructor <;> decide

theorem syncAux_true : ∀ (l : List Action), syncAux true l = true := by
  intro l
  induction l with
  | nil => rfl
  | cons a rest ih => cases a <;> simp [syncAux, ih]

theorem syncAux_append_no_gen (l1 : List Action)
    (h : ∀ a ∈ l1, isRunCmake a = false ∧ isFetchDeps a = false) :
    ∀ (l2 : List Action) (b : Bool), syncAux b (l1 ++ l2) = syncAux b l2 := by
  induction l1 with
  | nil => intro l2 b; rfl
  | cons a rest ih =>
    intro l2 b
    have ha := h a (List.mem_cons_self a rest)
    have hrest : ∀ a2 ∈ rest, isRunCmake a2 = false ∧ isFetchDeps a2 = false :=
      fun a2 h2 => h a2 (List.mem_cons_of_mem a h2)
    cases a with
    | fetchDeps u i => simp [isFetchDeps] at ha
    | runCmake ca cd => simp [isRunCmake] at ha
    | print s => simp [syncAux, ih hrest]
    | mkdir d => simp [syncAux, ih hrest]
    | rmdir d => simp [syncAux, ih hrest]
    | runMake ma => simp [syncAux, ih hrest]

theorem syncAux_no_gen : ∀ (l : List Action) (b : Bool),
    (∀ a ∈ l, isRunCmake a = false) → syncAux b l = true := by
  intro l
  induction l with
  | nil => intro b h; rfl
  | cons a rest ih =>
    intro b h
    have ha := h a (List.mem_cons_self a rest)
    have hrest : ∀ a2 ∈ rest, isRunCmake a2 = false :=
      fun a2 h2 => h a2 (List.mem_cons_of_mem a h2)
    cases a with
    | fetchDeps u i => simp [syncAux, syncAux_true]
    | runCmake ca cd => simp [isRunCmake] at ha
    | print s => simp [syncAux, ih b hrest]
    | mkdir d => simp [syncAux, ih b hrest]
    | rmdir d => simp [syncAux, ih b hrest]
    | runMake ma => simp [syncAux, ih b hrest]

/-- A trace that opens with actions that are neither a generator call nor the
synchronizer call, followed by the synchronizer call, satisfies
syncBeforeGen whatever comes after. -/
theorem syncBeforeGen_decomp (t0 : List Action) (u i : Bool) (rest : List Action)
    (h : ∀ a ∈ t0, isRunCmake a = false ∧ isFetchDeps a = false) :
    syncBeforeGen (t0 ++ Action.fetchDeps u i :: rest) = true := by
  rw [syncBeforeGen, syncAux_append_no_gen t0 h]
  simp [syncAux, syncAux_true]

theorem mkdirPrint_mem (env : PbEnv) (d : String) :
    ∀ a ∈ mkdirPrint env d, (∃ s, a = Action.print s) ∨ a = Action.mkdir d := by
  intro a ha
  unfold mkdirPrint at ha
  by_cases hp : env.pathExists d = true
  · rw [if_pos hp] at ha
    simp at ha
  · rw [if_neg hp] at ha
    simp at ha
    rcases ha with ha | ha
    · exact Or.inl ⟨_, ha⟩
    · exact Or.inr ha

theorem rmdirPrint_ok (env : PbEnv) (d : String) (h : env.rmtreeOk d = true) :
    (rmdirPrint env d).2 = none ∧
      ∀ a ∈ (rmdirPrint env d).1, (∃ s, a = Action.print s) ∨ a = Action.rmdir d := by
  unfold rmdirPrint
  by_cases hp : env.pathExists d = true
  · rw [if_pos hp, if_pos h]
    constructor
    · rfl
    · intro a ha
      simp at ha
      rcases ha with ha | ha
      · exact Or.inl ⟨_, ha⟩
      · exact Or.inr ha
  · rw [if_neg hp]
    constructor
    · rfl
    · intro a ha
      simp at ha
      rcases ha with ha | ha <;> exact Or.inl ⟨_, ha⟩

/-- C7 (counterexample to the claim as stated): a --clean run with a missing
output root creates that directory (mkdirPrint on line 106 runs before the
clean branch), a filesystem mutation outside the CMake output directory and
the per-configuration build output directories, even though the run still
exits 0. -/
theorem clean_creates_output_root :
    Action.mkdir ("out") ∈ (preBuild envNone execOk id [] argsClean ("root") st0).1 ∧
      ("out" ≠ "out" ++ "/" ++ "make" ∧ "out" ≠ "out" ++ "/" ++ "debug" ∧
        "out" ≠ "out" ++ "/" ++ "release") ∧
      (preBuild envNone execOk id [] argsClean ("root") st0).2 = Outcome.exited 0 := by
  refine ⟨?_, ⟨?_, ?_, ?_⟩, ?_⟩ <;> decide

/-- C7 (amended): when the clean switch is given and the deletions succeed,
the process exits with status 0 without fetching any dependency and without
invoking the generator or the build; it removes only the CMake output
directory and the per-configuration build output directories, and its only
other filesystem effect is creating the output root directory when it does
not yet exist (a step that runs before the clean branch). -/
theorem preBuild_clean (env : PbEnv) (exec : GitCmd → Int) (resolve : String → String)
    (gm : List GitEntry) (args : Args) (scriptRoot : String) (st : WorldState)
    (hclean : args.clean = true)
    (hrm : ∀ d, env.rmtreeOk d = true) :
    (preBuild env exec resolve gm args scriptRoot st).2 = Outcome.exited 0 ∧
      ∀ a ∈ (preBuild env exec resolve gm args scriptRoot st).1,
        (match a with
         | Action.print _ => True
         | Action.mkdir d => d = args.output
         | Action.rmdir d =>
             d = args.output ++ "/" ++ "make" ∨
               d = args.output ++ "/" ++ ("debug" ++ internalSuffix args) ∨
               d = args.output ++ "/" ++ ("release" ++ internalSuffix args)
         | _ => False) := by
  obtain ⟨hoA, hmA⟩ := rmdirPrint_ok env (args.output ++ "/" ++ "make") (hrm _)
  obtain ⟨hoB, hmB⟩ :=
    rmdirPrint_ok env (args.output ++ "/" ++ ("debug" ++ internalSuffix args)) (hrm _)
  obtain ⟨hoC, hmC⟩ :=
    rmdirPrint_ok env (args.output ++ "/" ++ ("release" ++ internalSuffix args)) (hrm _)
  unfold preBuild
  rw [if_pos hclean]
  rcases hA : rmdirPrint env (args.output ++ "/" ++ "make") with ⟨a1, o1⟩
  rw [hA] at hoA hmA
  dsimp only at hoA hmA
  subst hoA
  rcases hB : rmdirPrint env (args.output ++ "/" ++ ("debug" ++ internalSuffix args))
    with ⟨a2, o2⟩
  rw [hB] at hoB hmB
  dsimp only at hoB hmB
  subst hoB
  rcases hC : rmdirPrint env (args.output ++ "/" ++ ("release" ++ internalSuffix args))
    with ⟨a3, o3⟩
  rw [hC] at hoC hmC
  dsimp only at hoC hmC
  subst hoC
  simp only [andThen]
  constructor
  · rfl
  · intro a ha
    simp only [List.append_assoc, List.mem_append, List.mem_cons, List.mem_singleton,
      List.not_mem_nil, or_false] at ha
    rcases ha with ha | ha | ha | ha | ha
    · rcases mkdirPrint_mem env args.output a ha with ⟨s, rfl⟩ | rfl
      · trivial
      · rfl
    · subst ha
      trivial
    · rcases hmA a ha with ⟨s, rfl⟩ | rfl
      · trivial
      · exact Or.inl rfl
    · rcases hmB a ha with ⟨s, rfl⟩ | rfl
      · trivial
      · exact Or.inr (Or.inl rfl)
    · rcases hmC a ha with ⟨s, rfl⟩ | rfl
      · trivial
      · exact Or.inr (Or.inr rfl)

/-- Witness for the amended C7: a concrete --clean run deletes nothing that
exists, creates only the missing output root, and exits 0. -/
theorem preBuild_clean_witness :
    (preBuild envNone execOk id [] argsClean ("root") st0).2 = Outcome.exited 0 :=
  (preBuild_clean envNone execOk id [] argsClean ("root") st0 rfl (fun _ => rfl)).1

/-- A trace of the shape prefix / log line / synchronizer call / anything,
with a harmless prefix, satisfies syncBeforeGen. -/
theorem syncBeforeGen_run (A : List Action) (s1 : String) (u i : Bool) (rest : List Action)
    (h : ∀ a ∈ A, isRunCmake a = false ∧ isFetchDeps a = false) :
    syncBeforeGen (A ++ Action.print s1 :: Action.fetchDeps u i :: rest) = true := by
  rw [syncBeforeGen, syncAux_append_no_gen A h]
  simp [syncAux, syncAux_true]

/-- C6: on a non-clean run the orchestrator calls the dependency synchronizer
before any build-file generator (cmake) invocation, and whenever the
synchronizer reports failure (doFetchDependencies returns False) the run
prints the logErrorAndExit diagnostic line — the ERROR marker and the script
name preamble followed by "Unable to retrieve dependencies" — exits with
status -1, and never invokes the generator. -/
theorem preBuild_syncFailFatal (env : PbEnv) (exec : GitCmd → Int) (resolve : String → String)
    (gm : List GitEntry) (args : Args) (scriptRoot : String) (st : WorldState)
    (hclean : args.clean = false) :
    syncBeforeGen (preBuild env exec resolve gm args scriptRoot st).1 = true ∧
      ∀ r, doFetchDependencies exec resolve gm args.update args.internal st = some r →
        r.1 = false →
        preBuild env exec resolve gm args scriptRoot st =
          (mkdirPrint env args.output ++
             [Action.print (logLine ("Fetching project dependencies ...\n")),
              Action.fetchDeps args.update args.internal,
              Action.print (errLine ("Unable to retrieve dependencies"))],
           Outcome.exited (-1)) ∧
          ∀ a ∈ (preBuild env exec resolve gm args scriptRoot st).1, isRunCmake a = false := by
  have hA : ∀ a ∈ mkdirPrint env args.output,
      isRunCmake a = false ∧ isFetchDeps a = false := by
    intro a ha
    rcases mkdirPrint_mem env args.output a ha with ⟨s, rfl⟩ | rfl <;> exact ⟨rfl, rfl⟩
  constructor
  · unfold preBuild
    rw [if_neg (by rw [hclean]; simp)]
    cases hd : doFetchDependencies exec resolve gm args.update args.internal st with
    | none =>
      dsimp only
      apply syncAux_no_gen
      intro a ha
      rcases List.mem_append.mp ha with ha | ha
      · exact (hA a ha).1
      · simp at ha
        subst ha
        rfl
    | some r =>
      dsimp only
      by_cases hr : r.1 = false
      · rw [if_pos hr]
        dsimp only
        simp only [List.append_assoc, List.cons_append, List.singleton_append,
          List.nil_append]
        exact syncBeforeGen_run _ _ _ _ _ hA
      · rw [if_neg hr]
        cases hlq : locateQt env args with
        | error e =>
          dsimp only
          simp only [List.append_assoc, List.cons_append, List.singleton_append,
            List.nil_append]
          exact syncBeforeGen_run _ _ _ _ _ hA
        | ok qtBase =>
          dsimp only
          split
          · simp only [List.append_assoc, List.cons_append, List.singleton_append,
              List.nil_append]
            exact syncBeforeGen_run _ _ _ _ _ hA
          · simp only [List.append_assoc, List.cons_append, List.singleton_append,
              List.nil_append]
            exact syncBeforeGen_run _ _ _ _ _ hA
  · intro r hd hrf
    have heq : preBuild env exec resolve gm args scriptRoot st =
        (mkdirPrint env args.output ++
           [Action.print (logLine ("Fetching project dependencies ...\n")),
            Action.fetchDeps args.update args.internal,
            Action.print (errLine ("Unable to retrieve dependencies"))],
         Outcome.exited (-1)) := by
      unfold preBuild
      rw [if_neg (by rw [hclean]; simp), hd]
      dsimp only
      rw [if_pos hrf]
      simp [List.append_assoc]
    refine ⟨heq, ?_⟩
    rw [heq]
    intro a ha
    dsimp only at ha
    rcases List.mem_append.mp ha with ha | ha
    · exact (hA a ha).1
    · simp at ha
      rcases ha with rfl | rfl | rfl <;> rfl

/-- Witness for C6: with a stub oracle on which the first clone fails, the
orchestrator run exits with status -1. -/
theorem preBuild_syncFailFatal_witness :
    (preBuild envNone execCloneFails id [entryA] argsFetch ("root") st0).2 =
      Outcome.exited (-1) := by
  have hmap : (doFetchDependencies execCloneFails id [entryA] argsFetch.update
      argsFetch.internal st0).map (fun x => x.1) = some false := by decide
  obtain ⟨r, hr⟩ : ∃ r, doFetchDependencies execCloneFails id [entryA] argsFetch.update
      argsFetch.internal st0 = some r := ⟨_, rfl⟩
  have hrf : r.1 = false := by
    rw [hr] at hmap
    simpa using hmap
  have h := (preBuild_syncFailFatal envNone execCloneFails id [entryA] argsFetch ("root")
    st0 rfl).2 r hr hrf
  rw [h.1]

end RMV
